import Mathlib

/-!
Shallow embedding of the bank-cleaner data pipeline
(`bank-cleaner/data_cleaner.py` and the pipeline driver in
`bank-cleaner/main.py`) together with proofs about its cleaning,
classification and partitioning behaviour.

Tables are lists of rows; pandas missing values (`NaN` / `NaT`) are
`Option.none`; amounts are rationals.
-/

namespace BankCleaner

/-- Python's `needle in haystack` substring test: auxiliary scan over the
haystack's characters. -/
def subAux (p : List Char) : List Char → Bool
  | [] => p.isEmpty
  | c :: t => p.isPrefixOf (c :: t) || subAux p t

/-- Python's `needle in haystack` substring test on strings. -/
def pyIn (needle haystack : String) : Bool :=
  subAux needle.toList haystack.toList

/-- Decimal value of a digit list, most significant first. -/
def natValue (l : List Char) : Nat :=
  l.foldl (fun a c => 10 * a + (c.toNat - 48)) 0

/-- Python's `str.lower()` (character-wise, ASCII range as in the
source's column names and keywords). -/
def pyLower (s : String) : String :=
  (s.toList.map Char.toLower).asString

/-- Python's `str.strip()` / pandas `str.strip()`: drop leading and
trailing whitespace. -/
def pyStrip (s : String) : String :=
  (((s.toList.dropWhile Char.isWhitespace).reverse.dropWhile Char.isWhitespace).reverse).asString

/-- Split a character list at every occurrence of `sep` (Python
`str.split(sep)`). -/
def splitOnChar (sep : Char) : List Char → List (List Char)
  | [] => [[]]
  | c :: t =>
      match splitOnChar sep t, c == sep with
      | r, true => [] :: r
      | [], false => [[c]]
      | h :: r, false => (c :: h) :: r

/-- Parse a digit string as a natural number (used for date fields). -/
def listToNat? (l : List Char) : Option Nat :=
  if !l.isEmpty && l.all Char.isDigit then some (natValue l) else none

/-- Characters removed by `clean_amount_column`'s first regex
`[$£€¥,]`. -/
def isCurrencyChar (c : Char) : Bool :=
  c = '$' || c = '£' || c = '€' || c = '¥' || c = ','

/-- Step 1 of `clean_amount_column`: `s.str.replace(r'[$£€¥,]', '')`. -/
def stripCurrency (s : List Char) : List Char :=
  s.filter (fun c => !isCurrencyChar c)

/-- Step 2 of `clean_amount_column`: `re.sub(r'\((.*)\)', r'-\1', s)`.
The greedy pattern matches from the first `(` to the last `)` (when the
first `(` comes before the last `)`), and that single match is rewritten
with a leading minus. -/
def parenRewrite (s : List Char) : List Char :=
  match s.findIdx? (· == '('), (s.reverse.findIdx? (· == ')')).map (fun k => s.length - 1 - k) with
  | some i, some j =>
      if i < j then s.take i ++ '-' :: ((s.drop (i + 1)).take (j - i - 1)) ++ s.drop (j + 1)
      else s
  | _, _ => s

/-- Exact-match test for the capture group `\d+\.?\d*` of
`clean_amount_column`'s trailing-minus regex: one or more digits, an
optional dot, then zero or more digits. -/
def groupMatch (l : List Char) : Bool :=
  let ds := l.takeWhile Char.isDigit
  let rest := l.drop ds.length
  !ds.isEmpty &&
    (rest.isEmpty || (rest.headD ' ' == '.' && (rest.drop 1).all Char.isDigit))

/-- Leftmost suffix of the scanned text matched by `\d+\.?\d*` (anchored
just before the trailing `-$`): returns the unmatched text and the
matched group. -/
def findMatchStart : List Char → Option (List Char × List Char)
  | [] => none
  | c :: t =>
      if groupMatch (c :: t) then some ([], c :: t)
      else (findMatchStart t).map (fun pm => (c :: pm.1, pm.2))

/-- Step 3 of `clean_amount_column`: `re.sub(r'(\d+\.?\d*)-$', r'-\1', s)` —
a trailing minus after digits is moved in front of the matched group. -/
def minusRewrite (s : List Char) : List Char :=
  if s.getLast? = some '-' then
    match findMatchStart s.dropLast with
    | some pm => pm.1 ++ '-' :: pm.2
    | none => s
  else s

/-- Step 4 of `clean_amount_column`: `pd.to_numeric(s, errors='coerce')`,
modelled on plain decimal literals `[+-]?(\d+(\.\d*)?|\.\d+)`; anything
else coerces to missing.  The value is built with `Rat.divInt` so that it
evaluates by kernel reduction. -/
def parseDecimal (l : List Char) : Option ℚ :=
  let sr : Int × List Char :=
    match l with
    | '-' :: t => (-1, t)
    | '+' :: t => (1, t)
    | t => (1, t)
  let ds := sr.2.takeWhile Char.isDigit
  let rest := sr.2.drop ds.length
  match rest with
  | [] => if ds.isEmpty then none else some (Rat.divInt (sr.1 * natValue ds) 1)
  | '.' :: frac =>
      if frac.all Char.isDigit && !(ds.isEmpty && frac.isEmpty) then
        some (Rat.divInt (sr.1 * (natValue ds * 10 ^ frac.length + natValue frac))
          (10 ^ frac.length))
      else none
  | _ => none

/-- The function `clean_amount_column` applied to one cell's string rendering: strip
currency symbols and commas, rewrite parenthesised negatives, rewrite
trailing minus signs, then coerce to a number (missing on failure). -/
def cleanAmount (s : String) : Option ℚ :=
  parseDecimal (minusRewrite (parenRewrite (stripCurrency s.toList)))

example : cleanAmount "($12.34)" = some (-(1234 / 100 : ℚ)) := by
  have h : Rat.divInt (-1234) 100 = -(1234 / 100 : ℚ) := by
    rw [Rat.divInt_eq_div]; norm_num
  rw [← h]; decide
example : cleanAmount "12.34-" = some (-(1234 / 100 : ℚ)) := by
  have h : Rat.divInt (-1234) 100 = -(1234 / 100 : ℚ) := by
    rw [Rat.divInt_eq_div]; norm_num
  rw [← h]; decide
example : cleanAmount "$1,234.56" = some (123456 / 100 : ℚ) := by
  have h : Rat.divInt 123456 100 = (123456 / 100 : ℚ) := by
    rw [Rat.divInt_eq_div]; norm_num
  rw [← h]; decide
example : cleanAmount "ACME PAYMENT" = none := by decide
example : cleanAmount "(100.00)" = some (-100 : ℚ) := by decide

/-- Calendar dates as (month, day, year) triples. -/
abbrev Date := Nat × Nat × Nat

/-- The function `clean_date_column`: `pd.to_datetime(series, errors='coerce',
dayfirst=False)`, modelled on slash-separated month-first dates
`M/D/Y` (the US convention the source selects with `dayfirst=False`);
strings outside this grammar coerce to missing. -/
def parseDate (s : String) : Option Date :=
  match splitOnChar '/' s.toList with
  | [ms, ds, ys] =>
      match listToNat? ms, listToNat? ds, listToNat? ys with
      | some m, some d, some y =>
          if 1 ≤ m && m ≤ 12 && 1 ≤ d && d ≤ 31 then some (m, d, y) else none
      | _, _, _ => none
  | _ => none

/-- A raw input table: ordered column names and rows of cells, a missing
cell (pandas `NaN`) being `none`. -/
structure RawTable where
  cols : List String
  rows : List (List (Option String))
deriving DecidableEq

/-- The `ask_column_mapping` result: for each of the four core fields,
the chosen input column name, `""` meaning none. -/
structure Mapping where
  date : String
  description : String
  amount : String
  category : String
deriving DecidableEq

/-- Cell of a raw row at a column index (missing when out of range). -/
def getCell (row : List (Option String)) (i : Nat) : Option String :=
  (row[i]?).getD none

/-- Reading `df[name]` as a column of cells, `none` when the table has no column
called `name`. -/
def getColumn (t : RawTable) (name : String) : Option (List (Option String)) :=
  (t.cols.findIdx? (· == name)).map (fun i => t.rows.map (fun r => getCell r i))

/-- Python `str(cell)`: `astype(str)` renders a missing cell as "nan". -/
def pyStr (c : Option String) : String := c.getD "nan"

/-- The `Date` column built by `clean_dataframe`: the mapped date column
parsed cell-wise, or all-missing (`pd.NaT`) when no date column is
mapped or present. -/
def dateSeries (t : RawTable) (m : Mapping) : List (Option Date) :=
  match (if m.date ≠ "" then getColumn t m.date else none) with
  | some col => col.map (fun c => c.bind parseDate)
  | none => List.replicate t.rows.length none

/-- The `Amount` column built by `clean_dataframe`: the mapped amount
column cleaned cell-wise, or the constant `0.0` when no amount column is
mapped or present. -/
def amountSeries (t : RawTable) (m : Mapping) : List (Option ℚ) :=
  match (if m.amount ≠ "" then getColumn t m.amount else none) with
  | some col => col.map (fun c => cleanAmount (pyStr c))
  | none => List.replicate t.rows.length (some 0)

/-- The auxiliary note/memo column names probed by
`combine_description_fields`, in priority order. -/
def noteCandidates : List String :=
  ["Note", "note", "Notes", "Memo", "memo", "Reference", "ref"]

/-- The function `combine_description_fields`: the description column (empty string
for missing cells or a missing column), with the first present note
candidate appended after a space, each entry finally stripped. -/
def detailsSeries (t : RawTable) (m : Mapping) : List String :=
  let base : List String :=
    match getColumn t m.description with
    | some col => col.map (fun c => c.getD "")
    | none => List.replicate t.rows.length ""
  let merged : List String :=
    match noteCandidates.find? (fun c => t.cols.contains c) with
    | some nc =>
        match getColumn t nc with
        | some col => List.zipWith (fun d a => d ++ " " ++ a.getD "") base col
        | none => base
    | none => base
  merged.map pyStrip

/-- The `Category` column built by `clean_dataframe`: the mapped category
column with missing cells filled with "Uncategorized", or the constant
"Uncategorized" when no category column is mapped or present. -/
def categorySeries (t : RawTable) (m : Mapping) : List (Option String) :=
  match (if m.category ≠ "" then getColumn t m.category else none) with
  | some col => col.map (fun c => some (c.getD "Uncategorized"))
  | none => List.replicate t.rows.length (some "Uncategorized")

/-- A cleaned transaction row of `clean_dataframe`'s output
(columns `Date`, `Amount`, `Details`, `Category`); the category cell is
still `Option`-valued because a data frame cell can hold `NaN`. -/
structure Trans where
  date : Date
  amount : ℚ
  details : String
  category : Option String
deriving DecidableEq

/-- The function `clean_dataframe`: build the four cleaned columns from the mapping,
then drop every row whose `Date` or `Amount` is missing. -/
def cleanDataframe (t : RawTable) (m : Mapping) : List Trans :=
  (List.zip (dateSeries t m)
    (List.zip (amountSeries t m) (List.zip (detailsSeries t m) (categorySeries t m)))).filterMap
    fun x =>
      match x with
      | (some dv, some av, det, c) =>
          some { date := dv, amount := av, details := det, category := c }
      | _ => none

/-- Income keywords of `categorize_transaction`. -/
def incomePatterns : List String :=
  ["salary", "wage", "deposit", "transfer in", "refund"]

/-- The ordered expense category table of `categorize_transaction`
(Python dicts preserve insertion order). -/
def expenseCategories : List (String × List String) :=
  [("Grocery", ["grocery", "supermarket", "food", "walmart", "target"]),
   ("Gas", ["gas", "fuel", "petrol", "shell", "bp", "chevron"]),
   ("Utilities", ["electric", "gas bill", "water", "internet", "phone"]),
   ("Dining", ["restaurant", "cafe", "pizza", "mcdonald", "starbucks"]),
   ("Shopping", ["amazon", "store", "retail", "purchase"])]

/-- The `for category, patterns in expense_categories.items()` loop of
`categorize_transaction`: first table entry whose keyword list matches,
else "Other". -/
def expenseLoop (dl : String) : List (String × List String) → String
  | [] => "Other"
  | (cat, pats) :: rest =>
      if pats.any (fun p => pyIn p dl) then cat else expenseLoop dl rest

/-- The function `categorize_transaction(details, amount)`: eBay, then income, then
the expense table, else "Other"; all keyword tests are substring tests
against the lowercased details. -/
def categorizeTransaction (details : String) (amount : ℚ) : String :=
  let dl := pyLower details
  if pyIn "ebay" dl then "eBay"
  else if decide (0 < amount) && incomePatterns.any (fun p => pyIn p dl) then "Income"
  else expenseLoop dl expenseCategories

/-- A Master row: a cleaned transaction tagged with its `Master_Row`
sheet row number. -/
structure MRow where
  date : Date
  amount : ℚ
  details : String
  category : Option String
  masterRow : Nat
deriving DecidableEq

/-- Assignment `df['Master_Row'] = df.index + 2`: tag the rows with consecutive row
numbers starting at `start` (the source starts at 2). -/
def tagRows (start : Nat) : List Trans → List MRow
  | [] => []
  | t :: ts =>
      { date := t.date, amount := t.amount, details := t.details,
        category := t.category, masterRow := start } :: tagRows (start + 1) ts

/-- A dataset returned by `filter_transactions`: its rows plus its
`Source` column when that column was added (empty views never get
one). -/
structure View where
  rows : List MRow
  sourceCol : Option (List String)
deriving DecidableEq

/-- The `Source`-adding loop of `filter_transactions`: a non-empty
filtered data frame gets a `Source` column `=Master!A{Master_Row}`. -/
def addSource (rows : List MRow) : View :=
  { rows := rows
    sourceCol :=
      if rows.isEmpty then none
      else some (rows.map (fun r => "=Master!A" ++ toString r.masterRow)) }

/-- The four datasets `filter_transactions` returns. -/
structure FilterOut where
  master : View
  incoming : View
  outgoing : View
  ebayOutgoing : View
deriving DecidableEq

/-- The function `filter_transactions`: tag rows with `Master_Row`, auto-categorize
when the `Category` column is absent or all-missing, then split into
Master, incoming (`Amount > 0`), outgoing (`Amount < 0`) and eBay
outgoing (details contain "ebay" case-insensitively and `Amount < 0`),
adding the `Source` column to the non-empty filtered views. -/
def filterTransactions (catColPresent : Bool) (rows : List Trans) : FilterOut :=
  let tagged := tagRows 2 rows
  let cat :=
    if !catColPresent || rows.all (fun t => t.category.isNone) then
      tagged.map (fun r =>
        { r with category := some (categorizeTransaction r.details r.amount) })
    else tagged
  { master := { rows := cat, sourceCol := none }
    incoming := addSource (cat.filter (fun r => decide (0 < r.amount)))
    outgoing := addSource (cat.filter (fun r => decide (r.amount < 0)))
    ebayOutgoing := addSource (cat.filter (fun r =>
      pyIn "ebay" (pyLower r.details) && decide (r.amount < 0))) }

/-- The keyword patterns `ask_column_mapping` tries for each field. -/
def datePatterns : List String := ["date", "trans", "time", "posted"]

/-- Description keyword patterns of `ask_column_mapping`. -/
def descriptionPatterns : List String :=
  ["description", "desc", "memo", "details", "payee", "merchant"]

/-- Amount keyword patterns of `ask_column_mapping`. -/
def amountPatterns : List String :=
  ["amount", "amt", "value", "debit", "credit", "balance"]

/-- Category keyword patterns of `ask_column_mapping`. -/
def categoryPatterns : List String := ["category", "cat", "type", "class"]

/-- The inner `for col in columns` loop of `find_default_column`: first
column whose lowercased name contains `term`. -/
def findColumnLoop (columns : List String) (term : String) : Option String :=
  match columns with
  | [] => none
  | c :: cs => if pyIn term (pyLower c) then some c else findColumnLoop cs term

/-- The function `find_default_column(columns, key_terms)`: scan the key terms in
priority order, returning the first column whose lowercased name
contains the current term; `""` when nothing matches. -/
def findDefaultColumn (columns : List String) : List String → String
  | [] => ""
  | t :: ts =>
      match findColumnLoop columns t with
      | some c => c
      | none => findDefaultColumn columns ts

/-- The default mapping `ask_column_mapping` proposes (accepted as-is
when the user presses Enter at every prompt). -/
def inferMapping (cols : List String) : Mapping :=
  { date := findDefaultColumn cols datePatterns
    description := findDefaultColumn cols descriptionPatterns
    amount := findDefaultColumn cols amountPatterns
    category := findDefaultColumn cols categoryPatterns }

/-- The distinct fatal conditions `main` checks for, in order. -/
inductive PipelineError where
  | emptyCSV
  | missingAmountColumn
  | emptyAfterCleaning
deriving DecidableEq

/-- The `main` pipeline from loaded CSV to the four datasets: abort on an
empty input, abort when the mapping resolved no amount column, clean,
abort when no row survived cleaning, then partition (the cleaned frame
always carries a `Category` column). -/
def pipeline (t : RawTable) (m : Mapping) : Except PipelineError FilterOut :=
  if t.rows.isEmpty then .error .emptyCSV
  else if m.amount = "" then .error .missingAmountColumn
  else
    let cleaned := cleanDataframe t m
    if cleaned.isEmpty then .error .emptyAfterCleaning
    else .ok (filterTransactions true cleaned)

/-- Input table of the spec's no-category-column scenario: one row with
a parenthesised amount and details matching no classifier keyword. -/
def rawNoCat : RawTable :=
  { cols := ["Date", "Details", "Amount"]
    rows := [[some "01/15/2024", some "COFFEE SHOP", some "(100.00)"]] }

/-- The mapping inferred for `rawNoCat` (no category column maps). -/
def mapNoCat : Mapping :=
  { date := "Date", description := "Details", amount := "Amount", category := "" }

example : inferMapping rawNoCat.cols = mapNoCat := by decide

example :
    (pipeline rawNoCat mapNoCat).toOption.map
        (fun res => res.master.rows.map (fun r => (r.amount, r.category)))
      = some [((-100 : ℚ), some "Uncategorized")] := by decide

example : categorizeTransaction "COFFEE SHOP" (-100) = "Other" := by decide

/-- Rows used by several partitioner witnesses: a positive, a negative
eBay, and a zero transaction. -/
def witnessRows : List Trans :=
  [{ date := (1, 2, 2024), amount := 2000, details := "SALARY", category := some "Pay" },
   { date := (1, 3, 2024), amount := -45, details := "EBAY PURCHASE", category := some "Fun" },
   { date := (1, 4, 2024), amount := 0, details := "BALANCE CHECK", category := some "None" }]

theorem tagRows_map_masterRow (i : Nat) (ts : List Trans) :
    (tagRows i ts).map (fun r => r.masterRow) = List.range' i ts.length := by
  induction ts generalizing i with
  | nil => simp [tagRows]
  | cons t ts ih => simp [tagRows, List.range'_succ, ih]

theorem recat_map_masterRow (l : List MRow) :
    (l.map (fun r =>
      { r with category := some (categorizeTransaction r.details r.amount) })).map
        (fun r => r.masterRow)
      = l.map (fun r => r.masterRow) := by
  simp [List.map_map]

/-- The category-rewriting step of `filter_transactions` applied (or not)
to the tagged rows. -/
def catRows (catColPresent : Bool) (rows : List Trans) : List MRow :=
  if !catColPresent || rows.all (fun t => t.category.isNone) then
    (tagRows 2 rows).map (fun r =>
      { r with category := some (categorizeTransaction r.details r.amount) })
  else tagRows 2 rows

theorem filterTransactions_master_rows (c : Bool) (rows : List Trans) :
    (filterTransactions c rows).master.rows = catRows c rows := rfl

theorem catRows_map_masterRow (c : Bool) (rows : List Trans) :
    (catRows c rows).map (fun r => r.masterRow) = List.range' 2 rows.length := by
  unfold catRows
  split
  · rw [recat_map_masterRow, tagRows_map_masterRow]
  · rw [tagRows_map_masterRow]

/-- C4: the `master_row_id` (`Master_Row`) values assigned by
`filter_transactions` over a cleaned input of `n` transactions are
exactly `2, 3, ..., n + 1` in the input's iteration order, with no gaps
or repeats. -/
theorem master_row_ids_consecutive (c : Bool) (rows : List Trans) :
    (filterTransactions c rows).master.rows.map (fun r => r.masterRow)
      = List.range' 2 rows.length := by
  rw [filterTransactions_master_rows, catRows_map_masterRow]

theorem addSource_rows (l : List MRow) : (addSource l).rows = l := rfl

theorem addSource_getElem (l : List MRow) (i : Nat) (r : MRow)
    (h : l[i]? = some r) :
    ∃ src, (addSource l).sourceCol = some src ∧
      src[i]? = some ("=Master!A" ++ toString r.masterRow) := by
  have hne : l ≠ [] := by rintro rfl; simp at h
  refine ⟨l.map (fun r => "=Master!A" ++ toString r.masterRow), ?_, ?_⟩
  · simp [addSource, List.isEmpty_iff, hne]
  · simp [h]

/-- C5: every row of the incoming, outgoing and eBay-outgoing views has
a `Source` entry `=Master!A{N}` where `N` is that row's `Master_Row`
value, the row itself appears in Master, and Master carries no `Source`
column. -/
theorem source_reference_links (c : Bool) (rows : List Trans) :
    (filterTransactions c rows).master.sourceCol = none ∧
    ∀ v ∈ [(filterTransactions c rows).incoming, (filterTransactions c rows).outgoing,
        (filterTransactions c rows).ebayOutgoing],
      (∀ r ∈ v.rows, r ∈ (filterTransactions c rows).master.rows) ∧
      ∀ (i : Nat) (r : MRow), v.rows[i]? = some r →
        ∃ src, v.sourceCol = some src ∧
          src[i]? = some ("=Master!A" ++ toString r.masterRow) := by
  refine ⟨rfl, ?_⟩
  intro v hv
  simp only [List.mem_cons, List.not_mem_nil, or_false] at hv
  rcases hv with rfl | rfl | rfl <;>
    exact ⟨fun r hr => List.mem_of_mem_filter hr,
      fun i r h => addSource_getElem _ i r h⟩

def sourceWitnessRow : MRow :=
  { date := (1, 3, 2024), amount := -45, details := "EBAY PURCHASE",
    category := some "Fun", masterRow := 3 }

/-- Witness for C5 at a concrete input: the single eBay-outgoing row is
row 3 of Master and its `Source` entry is `=Master!A3`. -/
theorem source_reference_links_witness :
    sourceWitnessRow ∈ (filterTransactions true witnessRows).master.rows ∧
    ∃ src, (filterTransactions true witnessRows).ebayOutgoing.sourceCol = some src ∧
      src[0]? = some ("=Master!A" ++ toString sourceWitnessRow.masterRow) := by
  have h := (source_reference_links true witnessRows).2
    (filterTransactions true witnessRows).ebayOutgoing (by simp)
  exact ⟨h.1 sourceWitnessRow (by decide), h.2 0 sourceWitnessRow (by decide)⟩

/-- C6: incoming is exactly the Master rows with positive amount and
outgoing exactly those with negative amount; a zero-amount row is in
Master but in neither view, and a nonzero-amount row is in exactly one
of the two. -/
theorem sign_partition (c : Bool) (rows : List Trans) :
    (filterTransactions c rows).incoming.rows
        = (filterTransactions c rows).master.rows.filter (fun r => decide (0 < r.amount)) ∧
    (filterTransactions c rows).outgoing.rows
        = (filterTransactions c rows).master.rows.filter (fun r => decide (r.amount < 0)) ∧
    ∀ r ∈ (filterTransactions c rows).master.rows,
      (r.amount = 0 → r ∉ (filterTransactions c rows).incoming.rows ∧
        r ∉ (filterTransactions c rows).outgoing.rows) ∧
      (r.amount ≠ 0 →
        ((r ∈ (filterTransactions c rows).incoming.rows ∨
          r ∈ (filterTransactions c rows).outgoing.rows) ∧
         ¬(r ∈ (filterTransactions c rows).incoming.rows ∧
           r ∈ (filterTransactions c rows).outgoing.rows))) := by
  refine ⟨rfl, rfl, ?_⟩
  intro r hr
  constructor
  · intro h0
    constructor <;> intro hmem <;>
      rcases List.mem_filter.1 hmem with ⟨-, hlt⟩ <;>
      simp [h0] at hlt
  · intro hne
    have htr : r.amount < 0 ∨ 0 < r.amount := lt_or_gt_of_ne hne
    constructor
    · rcases htr with h | h
      · exact Or.inr (List.mem_filter.2 ⟨hr, by simp [h]⟩)
      · exact Or.inl (List.mem_filter.2 ⟨hr, by simp [h]⟩)
    · rintro ⟨hin, hout⟩
      rcases List.mem_filter.1 hin with ⟨-, hpos⟩
      rcases List.mem_filter.1 hout with ⟨-, hneg⟩
      simp only [decide_eq_true_eq] at hpos hneg
      exact absurd (lt_trans hneg hpos) (lt_irrefl _)

/-- Witness for C6 at a concrete input: the `0.00` row is in Master but
in neither incoming nor outgoing. -/
theorem sign_partition_witness :
    { date := (1, 4, 2024), amount := 0, details := "BALANCE CHECK",
        category := some "None", masterRow := 4 : MRow }
        ∈ (filterTransactions true witnessRows).master.rows ∧
    { date := (1, 4, 2024), amount := 0, details := "BALANCE CHECK",
        category := some "None", masterRow := 4 : MRow }
        ∉ (filterTransactions true witnessRows).incoming.rows ∧
    { date := (1, 4, 2024), amount := 0, details := "BALANCE CHECK",
        category := some "None", masterRow := 4 : MRow }
        ∉ (filterTransactions true witnessRows).outgoing.rows := by
  have h := ((sign_partition true witnessRows).2.2
    { date := (1, 4, 2024), amount := 0, details := "BALANCE CHECK",
        category := some "None", masterRow := 4 } (by decide)).1 rfl
  exact ⟨by decide, h.1, h.2⟩

theorem addSource_schema (l : List MRow) :
    ((addSource l).rows = [] → (addSource l).sourceCol = none) ∧
    ((addSource l).rows ≠ [] → (addSource l).sourceCol
        = some ((addSource l).rows.map (fun r => "=Master!A" ++ toString r.masterRow))) := by
  constructor <;> intro h <;> simp_all [addSource, List.isEmpty_iff]

/-- C10: a filtered view with zero rows comes back without any `Source`
column, while a non-empty filtered view carries one — the schema of an
empty filtered view differs from a non-empty one's. -/
theorem empty_view_no_source_column (c : Bool) (rows : List Trans) :
    ∀ v ∈ [(filterTransactions c rows).incoming, (filterTransactions c rows).outgoing,
        (filterTransactions c rows).ebayOutgoing],
      (v.rows = [] → v.sourceCol = none) ∧
      (v.rows ≠ [] → v.sourceCol
          = some (v.rows.map (fun r => "=Master!A" ++ toString r.masterRow))) := by
  intro v hv
  simp only [List.mem_cons, List.not_mem_nil, or_false] at hv
  rcases hv with rfl | rfl | rfl <;> exact addSource_schema _

def zeroOnlyRows : List Trans :=
  [{ date := (2, 5, 2024), amount := 0, details := "VOID", category := some "N" }]

/-- Witness for C10 at a concrete input whose views are all empty: no
`Source` column is present; and at `witnessRows`, whose outgoing view is
non-empty, the column is present. -/
theorem empty_view_no_source_column_witness :
    (filterTransactions true zeroOnlyRows).incoming.sourceCol = none ∧
    (filterTransactions true witnessRows).outgoing.sourceCol
      = some ["=Master!A3"] := by
  constructor
  · exact ((empty_view_no_source_column true zeroOnlyRows)
      (filterTransactions true zeroOnlyRows).incoming (by simp)).1 (by decide)
  · have h := ((empty_view_no_source_column true witnessRows)
      (filterTransactions true witnessRows).outgoing (by simp)).2 (by decide)
    rw [h]; decide

theorem expenseLoop_eq_find (dl : String) (l : List (String × List String)) :
    expenseLoop dl l =
      match l.find? (fun kv => kv.2.any (fun p => pyIn p dl)) with
      | some kv => kv.1
      | none => "Other" := by
  induction l with
  | nil => rfl
  | cons kv rest ih =>
      rcases kv with ⟨cat, pats⟩
      cases h : pats.any (fun p => pyIn p dl) with
      | true => simp [expenseLoop, List.find?_cons, h]
      | false => simp [expenseLoop, List.find?_cons, h, ih]

/-- C7: `categorize_transaction` evaluates its rules in a fixed order
with first-match-wins, case-insensitive substring semantics: "ebay" in
the details wins outright (whatever the amount), then a positive amount
with an income keyword yields "Income", then the first matching entry of
the expense table — declared in the order Grocery, Gas, Utilities,
Dining, Shopping — wins, and otherwise the result is "Other". -/
theorem categorize_rule_order (details : String) (amount : ℚ) :
    expenseCategories.map Prod.fst = ["Grocery", "Gas", "Utilities", "Dining", "Shopping"] ∧
    (pyIn "ebay" (pyLower details) = true →
      categorizeTransaction details amount = "eBay") ∧
    (pyIn "ebay" (pyLower details) = false → 0 < amount →
      incomePatterns.any (fun p => pyIn p (pyLower details)) = true →
      categorizeTransaction details amount = "Income") ∧
    (pyIn "ebay" (pyLower details) = false →
      ¬(0 < amount ∧ incomePatterns.any (fun p => pyIn p (pyLower details)) = true) →
      categorizeTransaction details amount =
        match expenseCategories.find?
            (fun kv => kv.2.any (fun p => pyIn p (pyLower details))) with
        | some kv => kv.1
        | none => "Other") := by
  refine ⟨rfl, ?_, ?_, ?_⟩
  · intro h
    simp [categorizeTransaction, h]
  · intro h h0 hi
    simp [categorizeTransaction, h, h0, hi]
  · intro h hni
    have hc : (decide (0 < amount) && incomePatterns.any fun p => pyIn p (pyLower details))
        = false := by
      by_cases h0 : 0 < amount
      · cases hii : incomePatterns.any fun p => pyIn p (pyLower details) with
        | true => exact absurd ⟨h0, hii⟩ hni
        | false => simp [h0, hii]
      · simp [h0]
    rw [← expenseLoop_eq_find]
    simp [categorizeTransaction, h, hc]

/-- Witness for C7: "ebay" wins even for a positive amount whose details
also contain an income keyword; income, first-matching-expense and
fallthrough rules at concrete inputs. -/
theorem categorize_rule_order_witness :
    categorizeTransaction "EBAY refund Deposit" 50 = "eBay" ∧
    categorizeTransaction "Salary payment" 100 = "Income" ∧
    categorizeTransaction "SHELL fuel stop" (-30) = "Gas" ∧
    categorizeTransaction "mystery item" (-1) = "Other" := by
  refine ⟨(categorize_rule_order "EBAY refund Deposit" 50).2.1 (by decide),
    (categorize_rule_order "Salary payment" 100).2.2.1 (by decide) (by norm_num) (by decide),
    ((categorize_rule_order "SHELL fuel stop" (-30)).2.2.2 (by decide)
      (by rintro ⟨h0, -⟩; norm_num at h0)).trans (by decide),
    ((categorize_rule_order "mystery item" (-1)).2.2.2 (by decide)
      (by rintro ⟨h0, -⟩; norm_num at h0)).trans (by decide)⟩

theorem findColumnLoop_eq_find (t : String) (cols : List String) :
    findColumnLoop cols t = cols.find? (fun c => pyIn t (pyLower c)) := by
  induction cols with
  | nil => rfl
  | cons c cs ih =>
      cases h : pyIn t (pyLower c) with
      | true => simp [findColumnLoop, List.find?_cons, h]
      | false => simp [findColumnLoop, List.find?_cons, h, ih]

/-- Specification-side restatement of column inference, following the
spec's words: the first column (in table order) whose name contains the
first matching keyword pattern, patterns checked in priority order;
empty string when none match. -/
def findDefaultColumnSpec (columns keyTerms : List String) : String :=
  (keyTerms.findSome? (fun t => columns.find? (fun c => pyIn t (pyLower c)))).getD ""

/-- C8: `find_default_column` returns the first column (in table order)
whose lowercased name contains the first keyword pattern that matches
any column, patterns being checked in their fixed priority order, and
returns `""` when no pattern matches any column. -/
theorem column_inference_first_match (columns keyTerms : List String) :
    findDefaultColumn columns keyTerms = findDefaultColumnSpec columns keyTerms ∧
    ((∀ t ∈ keyTerms, ∀ c ∈ columns, pyIn t (pyLower c) = false) →
      findDefaultColumn columns keyTerms = "") := by
  constructor
  · induction keyTerms with
    | nil => rfl
    | cons t ts ih =>
        show (match findColumnLoop columns t with
              | some c => c
              | none => findDefaultColumn columns ts) = _
        rw [findColumnLoop_eq_find]
        cases hf : columns.find? (fun c => pyIn t (pyLower c)) with
        | some c => simp [findDefaultColumnSpec, List.findSome?_cons, hf]
        | none => rw [ih]; simp [findDefaultColumnSpec, List.findSome?_cons, hf]
  · intro h
    induction keyTerms with
    | nil => rfl
    | cons t ts ih =>
        show (match findColumnLoop columns t with
              | some c => c
              | none => findDefaultColumn columns ts) = _
        rw [findColumnLoop_eq_find]
        have hnone : columns.find? (fun c => pyIn t (pyLower c)) = none :=
          List.find?_eq_none.2 (fun c hc => by simp [h t (by simp) c hc])
        rw [hnone]
        exact ih (fun t' ht' c hc => h t' (by simp [ht']) c hc)

/-- Witness for C8: on columns `["Posting Date", "Transaction Amount"]`
the amount patterns pick `"Transaction Amount"` (via the first matching
pattern "amount"), and no category pattern matches, yielding `""`. -/
theorem column_inference_first_match_witness :
    findDefaultColumn ["Posting Date", "Transaction Amount"] amountPatterns
        = findDefaultColumnSpec ["Posting Date", "Transaction Amount"] amountPatterns ∧
    findDefaultColumn ["Posting Date", "Transaction Amount"] categoryPatterns = "" := by
  refine ⟨(column_inference_first_match _ _).1, ?_⟩
  exact (column_inference_first_match
    ["Posting Date", "Transaction Amount"] categoryPatterns).2 (by decide)

/-- C3: when the column mapping resolved no amount column, `main` stops
at the mapping stage with the dedicated missing-amount failure, before
any cleaning happens, and never returns a successful result. -/
theorem missing_amount_mapping_fatal (t : RawTable) (m : Mapping)
    (hrows : t.rows ≠ []) (hamt : m.amount = "") :
    pipeline t m = Except.error PipelineError.missingAmountColumn ∧
    ∀ res : FilterOut, pipeline t m ≠ Except.ok res := by
  have hne : t.rows.isEmpty = false := by
    cases ht : t.rows with
    | nil => exact absurd ht hrows
    | cons a l => rfl
  refine ⟨?_, ?_⟩
  · simp [pipeline, hne, hamt]
  · intro res
    simp [pipeline, hne, hamt]

def oneRowTable : RawTable := { cols := ["Value"], rows := [[some "1"]] }

def noAmountMapping : Mapping :=
  { date := "", description := "", amount := "", category := "" }

/-- Witness for C3 at a concrete non-empty table with an empty amount
mapping. -/
theorem missing_amount_mapping_fatal_witness :
    pipeline oneRowTable noAmountMapping
      = Except.error PipelineError.missingAmountColumn :=
  (missing_amount_mapping_fatal oneRowTable noAmountMapping (by decide) rfl).1

/-- C1 (code bug): on the spec's scenario — a table with no category-like
column, whose single row has details "COFFEE SHOP" (matching no
classifier keyword) and raw amount cell "(100.00)" — the inferred
mapping indeed maps no category column and the amount normalizes to
`-100.00`, but after cleaning and partitioning the row's category is
"Uncategorized", not the "Other" the classifier would assign: the
`Category` column pre-filled by `clean_dataframe` stops
`filter_transactions`' "auto-categorize if not already done" guard from
ever invoking `categorize_transaction`. -/
theorem no_category_scenario_not_classified :
    inferMapping rawNoCat.cols = mapNoCat ∧
    (pipeline rawNoCat mapNoCat).toOption.map
        (fun res => res.master.rows.map (fun r => (r.amount, r.category)))
      = some [((-100 : ℚ), some "Uncategorized")] ∧
    categorizeTransaction "COFFEE SHOP" (-100) = "Other" :=
  ⟨by decide, by decide, by decide⟩

theorem mem_cleanDataframe_category (t : RawTable) (m : Mapping) (r : Trans)
    (h : r ∈ cleanDataframe t m) : r.category ∈ categorySeries t m := by
  unfold cleanDataframe at h
  rcases List.mem_filterMap.1 h with ⟨x, hx, hfx⟩
  rcases x with ⟨d, a, det, cc⟩
  cases d with
  | none => simp at hfx
  | some dv =>
      cases a with
      | none => simp at hfx
      | some av =>
          simp only [Option.some.injEq] at hfx
          have hcat : r.category = cc := by rw [← hfx]
          rw [hcat]
          exact (List.of_mem_zip (List.of_mem_zip (List.of_mem_zip hx).2).2).2

theorem categorySeries_isSome (t : RawTable) (m : Mapping) :
    ∀ c ∈ categorySeries t m, c.isSome = true := by
  intro c hc
  unfold categorySeries at hc
  cases hcol : (if m.category ≠ "" then getColumn t m.category else none) with
  | none =>
      rw [hcol] at hc
      rw [List.eq_of_mem_replicate hc]
      rfl
  | some col =>
      rw [hcol] at hc
      rcases List.mem_map.1 hc with ⟨v, -, rfl⟩
      rfl

/-- C9: cleaning never leaves a missing category: with a mapped, present
category column each missing cell becomes "Uncategorized" while present
values are kept unchanged, and with no usable category column every
cleaned row's category is "Uncategorized". -/
theorem category_never_missing (t : RawTable) (m : Mapping) :
    (∀ r ∈ cleanDataframe t m, r.category.isSome = true) ∧
    ((m.category = "" ∨ getColumn t m.category = none) →
      ∀ r ∈ cleanDataframe t m, r.category = some "Uncategorized") ∧
    (∀ col : List (Option String), m.category ≠ "" → getColumn t m.category = some col →
      ∀ (i : Nat) (v : Option String), col[i]? = some v →
        (categorySeries t m)[i]? = some (some (v.getD "Uncategorized"))) := by
  refine ⟨fun r hr => categorySeries_isSome t m _ (mem_cleanDataframe_category t m r hr),
    ?_, ?_⟩
  · intro h r hr
    have hc := mem_cleanDataframe_category t m r hr
    have hser : categorySeries t m
        = List.replicate t.rows.length (some "Uncategorized") := by
      unfold categorySeries
      rcases h with h | h
      · simp [h]
      · by_cases hm : m.category = "" <;> simp [hm, h]
    rw [hser] at hc
    exact List.eq_of_mem_replicate hc
  · intro col h1 h2 i v hv
    unfold categorySeries
    rw [if_pos h1, h2]
    simp [hv]

def catTable : RawTable :=
  { cols := ["Date", "Amount", "Cat"]
    rows := [[some "01/02/2024", some "5", some "Food"],
             [some "01/03/2024", some "6", none]] }

def catMapping : Mapping :=
  { date := "Date", description := "", amount := "Amount", category := "Cat" }

def catMappingNone : Mapping :=
  { date := "Date", description := "", amount := "Amount", category := "" }

/-- Witness for C9: a present category cell is kept, a missing one
becomes "Uncategorized", and with no category mapping a cleaned row's
category is "Uncategorized". -/
theorem category_never_missing_witness :
    (categorySeries catTable catMapping)[0]? = some (some "Food") ∧
    (categorySeries catTable catMapping)[1]? = some (some "Uncategorized") ∧
    { date := (1, 2, 2024), amount := 5, details := "", category := some "Uncategorized" : Trans
        }.category = some "Uncategorized" := by
  refine ⟨?_, ?_, ?_⟩
  · exact (category_never_missing catTable catMapping).2.2 [some "Food", none]
      (by decide) (by decide) 0 (some "Food") (by decide)
  · exact (category_never_missing catTable catMapping).2.2 [some "Food", none]
      (by decide) (by decide) 1 none (by decide)
  · exact (category_never_missing catTable catMappingNone).2.1 (Or.inl rfl)
      { date := (1, 2, 2024), amount := 5, details := "", category := some "Uncategorized" }
      (by decide)

theorem strToList_append (s t : String) : (s ++ t).toList = s.toList ++ t.toList := rfl

theorem data_asString (l : List Char) : l.asString.data = l := rfl

theorem digit_toNat (c : Char) (h : c.isDigit = true) : 48 ≤ c.toNat ∧ c.toNat ≤ 57 := by
  simpa [Char.isDigit] using h

theorem digit_classes (c : Char) (h : c.isDigit = true) :
    isCurrencyChar c = false ∧ (c == '(') = false ∧ (c == ')') = false ∧
    (c == '.') = false ∧ c ≠ '-' ∧ c ≠ ')' ∧ c ≠ '(' := by
  obtain ⟨h1, h2⟩ := digit_toNat c h
  have hne : ∀ d : Char, (d.toNat < 48 ∨ 57 < d.toNat) → c ≠ d := by
    intro d hd he
    subst he
    omega
  refine ⟨?_, ?_, ?_, ?_, ?_, ?_, ?_⟩
  · simp only [isCurrencyChar, Bool.or_eq_false_iff]
    refine ⟨⟨⟨⟨?_, ?_⟩, ?_⟩, ?_⟩, ?_⟩ <;>
      simp only [decide_eq_false_iff_not] <;>
      exact hne _ (by decide)
  · exact beq_eq_false_iff_ne.2 (hne _ (by decide))
  · exact beq_eq_false_iff_ne.2 (hne _ (by decide))
  · exact beq_eq_false_iff_ne.2 (hne _ (by decide))
  · exact hne _ (by decide)
  · exact hne _ (by decide)
  · exact hne _ (by decide)

theorem stripCurrency_nil : stripCurrency [] = [] := rfl

theorem stripCurrency_cons (c : Char) (l : List Char) :
    stripCurrency (c :: l)
      = if isCurrencyChar c then stripCurrency l else c :: stripCurrency l := by
  simp only [stripCurrency, List.filter_cons]
  cases h : isCurrencyChar c <;> simp [h]

theorem stripCurrency_append (l₁ l₂ : List Char) :
    stripCurrency (l₁ ++ l₂) = stripCurrency l₁ ++ stripCurrency l₂ := by
  simp [stripCurrency]

theorem stripCurrency_digits (l : List Char) (h : l.all Char.isDigit = true) :
    stripCurrency l = l := by
  refine List.filter_eq_self.2 (fun c hc => ?_)
  have hd := List.all_eq_true.1 h c hc
  simp [(digit_classes c hd).1]

theorem parenRewrite_wrap (mid : List Char) :
    parenRewrite ('(' :: (mid ++ [')'])) = '-' :: mid := by
  have hfst : ('(' :: (mid ++ [')'])).findIdx? (· == '(') = some 0 := by
    rw [List.findIdx?_cons]
    simp
  have hrev : ('(' :: (mid ++ [')'])).reverse = ')' :: (mid.reverse ++ ['(']) := by
    simp
  have hlast : (('(' :: (mid ++ [')'])).reverse.findIdx? (· == ')')) = some 0 := by
    rw [hrev, List.findIdx?_cons]
    simp
  have hlen : ('(' :: (mid ++ [')'])).length = mid.length + 2 := by simp
  unfold parenRewrite
  rw [hfst, hlast]
  simp only [Option.map_some', hlen]
  rw [if_pos (by omega)]
  have h1 : mid.length + 2 - 1 - 0 = mid.length + 1 := by omega
  rw [h1]
  have h2 : ('(' :: (mid ++ [')'])).drop (0 + 1) = mid ++ [')'] := by simp
  have h3 : ('(' :: (mid ++ [')'])).take 0 = [] := by simp
  have h4 : (mid ++ [')']).take (mid.length + 1 - 0 - 1) = mid := by
    have he : mid.length + 1 - 0 - 1 = mid.length := by omega
    rw [he]
    exact List.take_left mid [')']
  have h5 : ('(' :: (mid ++ [')'])).drop (mid.length + 1 + 1) = [] := by
    apply List.drop_eq_nil_of_le
    simp
  rw [h2, h3, h4, h5]
  simp

theorem parenRewrite_no_paren (l : List Char) (h : ∀ c ∈ l, (c == '(') = false) :
    parenRewrite l = l := by
  unfold parenRewrite
  rw [List.findIdx?_eq_none_iff.2 h]

theorem minusRewrite_of_getLast (l : List Char) (h : l.getLast? ≠ some '-') :
    minusRewrite l = l := by
  unfold minusRewrite
  rw [if_neg h]

theorem takeWhile_digits_dot (a rest : List Char) (ha : a.all Char.isDigit = true) :
    (a ++ '.' :: rest).takeWhile Char.isDigit = a := by
  rw [List.takeWhile_append_of_pos (fun c hc => List.all_eq_true.1 ha c hc)]
  rw [List.takeWhile_cons_of_neg (by decide)]
  simp

theorem groupMatch_dec (a b : List Char) (ha : a ≠ [])
    (hda : a.all Char.isDigit = true) (hdb : b.all Char.isDigit = true) :
    groupMatch (a ++ '.' :: b) = true := by
  have hae : a.isEmpty = false := by
    cases a with
    | nil => exact absurd rfl ha
    | cons x xs => rfl
  have h1 := takeWhile_digits_dot a b hda
  simp only [groupMatch, h1, List.drop_left]
  simp [hae, hdb]

theorem findMatchStart_dec (a b : List Char) (ha : a ≠ [])
    (hda : a.all Char.isDigit = true) (hdb : b.all Char.isDigit = true) :
    findMatchStart (a ++ '.' :: b) = some ([], a ++ '.' :: b) := by
  have hg := groupMatch_dec a b ha hda hdb
  cases a with
  | nil => exact absurd rfl ha
  | cons x xs =>
      show findMatchStart (x :: (xs ++ '.' :: b)) = _
      rw [findMatchStart]
      simp only [List.cons_append] at hg
      rw [if_pos hg]
      simp

theorem minusRewrite_trailing (a b : List Char) (ha : a ≠ [])
    (hda : a.all Char.isDigit = true) (hdb : b.all Char.isDigit = true) :
    minusRewrite (a ++ '.' :: (b ++ ['-'])) = '-' :: (a ++ '.' :: b) := by
  have hshape : a ++ '.' :: (b ++ ['-']) = (a ++ '.' :: b) ++ ['-'] := by simp
  unfold minusRewrite
  rw [hshape, List.getLast?_concat, if_pos rfl, List.dropLast_concat]
  rw [findMatchStart_dec a b ha hda hdb]
  simp

theorem parseDecimal_neg_dec (a b : List Char) (ha : a ≠ [])
    (hda : a.all Char.isDigit = true) (hdb : b.all Char.isDigit = true) :
    parseDecimal ('-' :: (a ++ '.' :: b))
      = some (Rat.divInt (-1 * ((natValue a : ℤ) * 10 ^ b.length + (natValue b : ℤ)))
          ((10 : ℤ) ^ b.length)) := by
  have hae : a.isEmpty = false := by
    cases a with
    | nil => exact absurd rfl ha
    | cons x xs => rfl
  have h1 := takeWhile_digits_dot a b hda
  simp only [parseDecimal, h1, List.drop_left]
  simp [hae, hdb]

theorem divInt_dec (A B k : Nat) :
    Rat.divInt (-1 * ((A : ℤ) * 10 ^ k + (B : ℤ))) ((10 : ℤ) ^ k)
      = -((A : ℚ) + (B : ℚ) / 10 ^ k) := by
  have h10 : ((10 : ℚ) ^ k) ≠ 0 := by positivity
  rw [Rat.divInt_eq_div]
  push_cast
  field_simp

theorem c2paren (a b : List Char) (ha : a ≠ [])
    (hda : a.all Char.isDigit = true) (hdb : b.all Char.isDigit = true) :
    cleanAmount ("($" ++ a.asString ++ "." ++ b.asString ++ ")")
      = some (-((natValue a : ℚ) + (natValue b : ℚ) / 10 ^ b.length)) := by
  have htl : ("($" ++ a.asString ++ "." ++ b.asString ++ ")").toList
      = '(' :: '$' :: (a ++ '.' :: (b ++ [')'])) := by
    simp [strToList_append, List.toList_asString, data_asString, String.toList]
  have e1 : isCurrencyChar '(' = false := by decide
  have e2 : isCurrencyChar '$' = true := by decide
  have e3 : isCurrencyChar '.' = false := by decide
  have e4 : isCurrencyChar ')' = false := by decide
  have hstrip : stripCurrency ('(' :: '$' :: (a ++ '.' :: (b ++ [')'])))
      = '(' :: (a ++ '.' :: (b ++ [')'])) := by
    rw [stripCurrency_cons, stripCurrency_cons]
    rw [stripCurrency_append]
    rw [stripCurrency_cons]
    rw [stripCurrency_append]
    rw [stripCurrency_cons, stripCurrency_nil]
    rw [stripCurrency_digits a hda, stripCurrency_digits b hdb]
    simp [e1, e2, e3, e4]
  have hparen : parenRewrite ('(' :: (a ++ '.' :: (b ++ [')']))) = '-' :: (a ++ '.' :: b) := by
    rw [show ('(' :: (a ++ '.' :: (b ++ [')']))) = '(' :: ((a ++ '.' :: b) ++ [')']) by simp]
    exact parenRewrite_wrap (a ++ '.' :: b)
  have hminus : minusRewrite ('-' :: (a ++ '.' :: b)) = '-' :: (a ++ '.' :: b) := by
    apply minusRewrite_of_getLast
    rcases List.eq_nil_or_concat b with rfl | ⟨bs, c', rfl⟩
    · rw [show ('-' :: (a ++ '.' :: ([] : List Char))) = ('-' :: a) ++ ['.'] by simp]
      rw [List.getLast?_concat]
      decide
    · rw [show ('-' :: (a ++ '.' :: (bs.concat c'))) = ('-' :: a ++ '.' :: bs) ++ [c'] by simp]
      rw [List.getLast?_concat]
      have hc' : c'.isDigit = true := by
        have hh := hdb
        simp [List.concat_eq_append] at hh
        exact hh.2
      intro hcon
      exact absurd (Option.some.inj hcon) (digit_classes c' hc').2.2.2.2.1
  rw [show cleanAmount ("($" ++ a.asString ++ "." ++ b.asString ++ ")")
      = parseDecimal (minusRewrite (parenRewrite (stripCurrency
          ("($" ++ a.asString ++ "." ++ b.asString ++ ")").toList))) from rfl]
  rw [htl, hstrip, hparen, hminus, parseDecimal_neg_dec a b ha hda hdb]
  rw [divInt_dec]

theorem c2trailing (a b : List Char) (ha : a ≠ [])
    (hda : a.all Char.isDigit = true) (hdb : b.all Char.isDigit = true) :
    cleanAmount (a.asString ++ "." ++ b.asString ++ "-")
      = some (-((natValue a : ℚ) + (natValue b : ℚ) / 10 ^ b.length)) := by
  have htl : (a.asString ++ "." ++ b.asString ++ "-").toList = a ++ '.' :: (b ++ ['-']) := by
    simp [strToList_append, data_asString, String.toList]
  have hmem : ∀ c ∈ a ++ '.' :: (b ++ ['-']), c.isDigit = true ∨ c = '.' ∨ c = '-' := by
    intro c hc
    simp only [List.mem_append, List.mem_cons, List.not_mem_nil, or_false] at hc
    rcases hc with h | rfl | h | rfl
    · exact Or.inl (List.all_eq_true.1 hda c h)
    · exact Or.inr (Or.inl rfl)
    · exact Or.inl (List.all_eq_true.1 hdb c h)
    · exact Or.inr (Or.inr rfl)
  have hstrip : stripCurrency (a ++ '.' :: (b ++ ['-'])) = a ++ '.' :: (b ++ ['-']) := by
    refine List.filter_eq_self.2 (fun c hc => ?_)
    rcases hmem c hc with h | rfl | rfl
    · simp [(digit_classes c h).1]
    · decide
    · decide
  have hparen : parenRewrite (a ++ '.' :: (b ++ ['-'])) = a ++ '.' :: (b ++ ['-']) := by
    refine parenRewrite_no_paren _ (fun c hc => ?_)
    rcases hmem c hc with h | rfl | rfl
    · exact (digit_classes c h).2.1
    · decide
    · decide
  rw [show cleanAmount (a.asString ++ "." ++ b.asString ++ "-")
      = parseDecimal (minusRewrite (parenRewrite (stripCurrency
          (a.asString ++ "." ++ b.asString ++ "-").toList))) from rfl]
  rw [htl, hstrip, hparen, minusRewrite_trailing a b ha hda hdb,
    parseDecimal_neg_dec a b ha hda hdb, divInt_dec]

/-- C2: amount normalization sends parenthesised amounts `($a.b)` to the
negated decimal value, trailing-minus amounts `a.b-` to the negated
decimal value, strips currency symbols and thousands commas
(`$1,234.56` to `1234.56`), and coerces non-numeric garbage to missing
instead of raising. -/
theorem amount_normalization :
    (∀ a b : List Char, a ≠ [] → a.all Char.isDigit = true → b.all Char.isDigit = true →
      cleanAmount ("($" ++ a.asString ++ "." ++ b.asString ++ ")")
        = some (-((natValue a : ℚ) + (natValue b : ℚ) / 10 ^ b.length))) ∧
    (∀ a b : List Char, a ≠ [] → a.all Char.isDigit = true → b.all Char.isDigit = true →
      cleanAmount (a.asString ++ "." ++ b.asString ++ "-")
        = some (-((natValue a : ℚ) + (natValue b : ℚ) / 10 ^ b.length))) ∧
    cleanAmount "$1,234.56" = some (123456 / 100 : ℚ) ∧
    cleanAmount "THREE DOLLARS AND FIVE CENTS" = none := by
  refine ⟨c2paren, c2trailing, ?_, by decide⟩
  have h : Rat.divInt 123456 100 = (123456 / 100 : ℚ) := by
    rw [Rat.divInt_eq_div]; norm_num
  rw [← h]; decide

/-- Witness for C2 at the spec's concrete strings. -/
theorem amount_normalization_witness :
    cleanAmount "($12.34)" = some (-(1234 / 100 : ℚ)) ∧
    cleanAmount "12.34-" = some (-(1234 / 100 : ℚ)) := by
  have hs1 : ("($" ++ (['1', '2'] : List Char).asString ++ "."
      ++ (['3', '4'] : List Char).asString ++ ")") = "($12.34)" := by decide
  have hs2 : ((['1', '2'] : List Char).asString ++ "."
      ++ (['3', '4'] : List Char).asString ++ "-") = "12.34-" := by decide
  have hv : (-((natValue ['1', '2'] : ℚ) + (natValue ['3', '4'] : ℚ) / 10 ^ (['3', '4'] : List Char).length))
      = -(1234 / 100 : ℚ) := by
    rw [show natValue ['1', '2'] = 12 from by decide,
      show natValue ['3', '4'] = 34 from by decide]
    norm_num
  constructor
  · have h := amount_normalization.1 ['1', '2'] ['3', '4'] (by decide) (by decide) (by decide)
    rw [hs1, hv] at h
    exact h
  · have h := amount_normalization.2.1 ['1', '2'] ['3', '4'] (by decide) (by decide) (by decide)
    rw [hs2, hv] at h
    exact h

end BankCleaner
